import Mathlib

/-!
Verification of the Volatility-Regime Adaptive Portfolio Optimizer.

Shallow embedding over ℚ (exact arithmetic in place of Python floats) of:
  - src/portfolio_optimizer.py : calculate_covariance_matrix,
    calculate_expected_returns, mean_variance_optimization
  - src/strategy_engine.py : generate_regime_specific_weights
  - src/market_analyzer.py : identify_regimes
  - src/backtester.py : Backtester._calculate_trade_cost and the per-date
    body of Backtester.run_backtest

Vectors over the ordered asset universe are `List ℚ`, position i being the
i-th symbol of settings.ASSET_SYMBOLS.  A pandas DataFrame of returns is a
list of columns (one `List ℚ` per symbol, all of equal length = row count).
In ℚ, division by zero yields 0 where pandas would produce NaN/inf; no claim
below depends on such a point.
-/

/-- Dot product of two aligned vectors (`(holdings * prices).sum`). -/
def dot (a b : List ℚ) : ℚ := (List.zipWith (· * ·) a b).sum

/-- Model of `np.abs` on one component, written with an explicit branch so that it
reduces definitionally on concrete rationals. -/
def ratAbs (x : ℚ) : ℚ := if x < 0 then -x else x

/-- Model of `df.empty` for a column-wise DataFrame: true iff any axis has length 0. -/
def dfIsEmpty (cols : List (List ℚ)) : Bool :=
  cols.isEmpty || cols.any (·.isEmpty)

/-- Column mean, `Series.mean()`. -/
def colMean (c : List ℚ) : ℚ := c.sum / (c.length : ℚ)

/-- Sample covariance of two aligned columns, the entry semantics of
`DataFrame.cov()` (denominator `n - 1`; in ℚ the `n = 1` case gives 0 where
pandas gives NaN — no claim touches it). -/
def covPair (a b : List ℚ) : ℚ :=
  (List.zipWith (fun x y => (x - colMean a) * (y - colMean b)) a b).sum
    / ((a.length : ℚ) - 1)

/-- Embedding of `calculate_covariance_matrix` (src/portfolio_optimizer.py lines 5-12):
returns an empty DataFrame when the input window is empty, else the sample
covariance matrix.  `Except String` models the possibility of a raised
exception: the source has no raise path, so every branch is `.ok`. -/
def calculate_covariance_matrix (returns : List (List ℚ)) :
    Except String (List (List ℚ)) :=
  if dfIsEmpty returns then Except.ok []
  else Except.ok (returns.map (fun a => returns.map (fun b => covPair a b)))

/-- Embedding of `calculate_expected_returns` (src/portfolio_optimizer.py lines 14-21):
returns an empty Series when the input window is empty, else per-column
means.  As above, the source has no raise path. -/
def calculate_expected_returns (returns : List (List ℚ)) :
    Except String (List ℚ) :=
  if dfIsEmpty returns then Except.ok []
  else Except.ok (returns.map colMean)

/-- Outcome of the `scipy.optimize.minimize` call (exogenous numerical
solver): it returns a point with `success = true`, returns with
`success = false`, or raises a numerical exception. -/
inductive SolveOutcome where
  | success (x : List ℚ)
  | failure
  | exception
deriving DecidableEq, Repr

/-- Equal-weight vector `np.ones(n) / n`. -/
def equalWeights (n : ℕ) : List ℚ := List.replicate n ((1 : ℚ) / (n : ℚ))

/-- Model of `np.clip(v, 0, 1)` on one component, written with explicit branches so
that it reduces definitionally on concrete rationals. -/
def clip01 (v : ℚ) : ℚ := if v < 0 then 0 else if 1 < v then 1 else v

/-- Embedding of `mean_variance_optimization` (src/portfolio_optimizer.py lines 23-115),
abstracted over the exogenous solver outcome.  Control flow of the source:
`num_assets == 0` returns an empty array (line 48-49, before anything else);
then, if neither `target_risk` nor `risk_aversion_lambda` is given, a
`ValueError` is raised (line 86) — this raise sits outside the
`try`/`except`, so it propagates (`.error`); the `try` block wraps only the
`minimize` call: on `result.success` the solution is clipped to [0,1] and
re-normalized (equal weights if the clipped sum is 0, lines 101-109); on
non-convergence it returns `np.ones(n)/n` (line 112); on any exception it
returns `np.ones(n)` — NOT divided by `n` (line 115). -/
def mean_variance_optimization (num_assets : ℕ)
    (target_risk risk_aversion_lambda : Option ℚ)
    (outcome : SolveOutcome) : Except String (List ℚ) :=
  if num_assets = 0 then Except.ok []
  else if target_risk.isNone && risk_aversion_lambda.isNone then
    Except.error "Either target_risk or risk_aversion_lambda must be provided."
  else
    match outcome with
    | SolveOutcome.success x =>
        let w := x.map clip01
        if w.sum ≠ 0 then Except.ok (w.map (fun v => v / w.sum))
        else Except.ok (equalWeights num_assets)
    | SolveOutcome.failure => Except.ok (equalWeights num_assets)
    | SolveOutcome.exception => Except.ok (List.replicate num_assets 1)

/-- Embedding of `generate_regime_specific_weights` (src/strategy_engine.py lines 6-55),
abstracted over the vector the allocator call returns (`allocResult`; the
regime only selects which objective parameters that call receives, lines
24-46, and every non-empty branch makes exactly one allocator call).
`numRows × numAssets` is `lookback_returns.shape`; `lookback_returns.empty`
is true iff either is 0.  Returns the weight vector together with a flag
recording whether the allocator was invoked.  Post-processing (lines 48-53):
clip to [0,1], re-normalize if the sum is nonzero, else equal weights. -/
def generate_regime_specific_weights (current_regime : String)
    (numRows numAssets : ℕ) (allocResult : List ℚ) : List ℚ × Bool :=
  let equal := equalWeights numAssets
  if numRows = 0 ∨ numAssets = 0 then (equal, false)
  else
    let _ := current_regime
    let w := allocResult.map clip01
    if w.sum ≠ 0 then (w.map (fun v => v / w.sum), true)
    else (equal, true)

/-- Per-value semantics of `identify_regimes` (src/market_analyzer.py lines
42-56).  The source initializes every label to `Normal_Vol`, then overwrites
positions with `value >= high_threshold` to `High_Vol`, then overwrites
positions with `value <= low_threshold` to `Low_Vol`; the later masked
assignment wins, so `value <= low_threshold` takes precedence. -/
def regimeLabel (high_threshold low_threshold v : ℚ) : String :=
  if v ≤ low_threshold then "Low_Vol"
  else if high_threshold ≤ v then "High_Vol"
  else "Normal_Vol"

/-- Embedding of `identify_regimes` over a volatility series. -/
def identify_regimes (high_threshold low_threshold : ℚ)
    (vols : List ℚ) : List String :=
  vols.map (regimeLabel high_threshold low_threshold)

/-- Embedding of `Backtester._calculate_trade_cost` (src/backtester.py lines 19-27):
`sum(|new_w*value - old_w*value|) * (transaction_cost_rate + slippage_rate)`,
with `rate` the already-summed fractional rate. -/
def calculate_trade_cost (rate : ℚ) (old_weights new_weights : List ℚ)
    (current_portfolio_value : ℚ) : ℚ :=
  (List.zipWith
      (fun nw ow => ratAbs (nw * current_portfolio_value - ow * current_portfolio_value))
      new_weights old_weights).sum * rate

/-- The per-symbol execution loop of `Backtester.run_backtest`
(src/backtester.py lines 76-88), walking the asset universe in order.
Each list element is `(holding, shareDelta, price)` for one symbol.
Returns (final cash, final holdings, whether any buy was skipped for
insufficient cash).  A positive delta is a buy: executed only if
`cash >= delta * price`, otherwise skipped whole (holdings and cash
untouched for that symbol); a negative delta is a sell, always executed;
a zero delta does nothing. -/
def execTrades (cash : ℚ) : List (ℚ × ℚ × ℚ) → ℚ × List ℚ × Bool
  | [] => (cash, [], false)
  | (h, d, p) :: rest =>
    if 0 < d then
      let buy_amount := d * p
      if buy_amount ≤ cash then
        let r := execTrades (cash - buy_amount) rest
        (r.1, (h + d) :: r.2.1, r.2.2)
      else
        let r := execTrades cash rest
        (r.1, h :: r.2.1, true)
    else if d < 0 then
      let r := execTrades (cash - d * p) rest
      (r.1, (h + d) :: r.2.1, r.2.2)
    else
      let r := execTrades cash rest
      (r.1, h :: r.2.1, r.2.2)

/-- Result of one date's iteration of `Backtester.run_backtest`. -/
structure StepResult where
  cash : ℚ
  holdings : List ℚ
  anySkip : Bool
  tradeCost : ℚ
  finalAssetValue : ℚ
  finalValue : ℚ
  weights : List ℚ
deriving Repr, DecidableEq

/-- One date's iteration of `Backtester.run_backtest` (src/backtester.py
lines 65-107), for a date whose prices are all present.  Inputs: the summed
fractional cost rate, the state entering the date (`holdings`, `cash`), this
date's `prices` and target `weights`, and the `previous_weights` carried from
the last processed date.  Steps, in source order: pre-trade asset values and
portfolio value (lines 65-66); trade cost from previous vs target weights at
that value, deducted from cash up front (lines 68-71); target share counts
from the post-cost value (line 73) and share deltas (line 74); the execution
loop (lines 76-88); final asset value and total (lines 90-91).  `weights` is
the vector written into the history entry (line 98) and carried forward as
`previous_weights` (lines 101-107): the source divides the PRE-trade
`current_asset_values` by the POST-trade `final_portfolio_value` (0 whenever
that total is 0). -/
def runStep (rate : ℚ) (holdings prices target_weights previous_weights : List ℚ)
    (cash : ℚ) : StepResult :=
  let current_asset_values := List.zipWith (· * ·) holdings prices
  let portfolio_value := current_asset_values.sum + cash
  let trade_cost := calculate_trade_cost rate previous_weights target_weights portfolio_value
  let portfolio_value_after_cost := portfolio_value - trade_cost
  let cash1 := cash - trade_cost
  let target_shares :=
    List.zipWith (fun w p => w * portfolio_value_after_cost / p) target_weights prices
  let shares_to_trade := List.zipWith (fun t h => t - h) target_shares holdings
  let r := execTrades cash1 (List.zip holdings (List.zip shares_to_trade prices))
  let final_asset_value := dot r.2.1 prices
  let final_portfolio_value := final_asset_value + r.1
  { cash := r.1
    holdings := r.2.1
    anySkip := r.2.2
    tradeCost := trade_cost
    finalAssetValue := final_asset_value
    finalValue := final_portfolio_value
    weights := current_asset_values.map
      (fun a => if final_portfolio_value ≠ 0 then a / final_portfolio_value else 0) }

/-! ### Shared helper lemmas -/

theorem dot_cons (x y : ℚ) (xs ys : List ℚ) :
    dot (x :: xs) (y :: ys) = x * y + dot xs ys := rfl

theorem sum_map_div (l : List ℚ) (s : ℚ) :
    (l.map (fun v => v / s)).sum = l.sum / s := by
  induction l with
  | nil => simp
  | cons a t ih => simp [ih, add_div]

theorem clip01_mem_unit (v : ℚ) : 0 ≤ clip01 v ∧ clip01 v ≤ 1 := by
  unfold clip01
  split_ifs with h1 h2
  · norm_num
  · norm_num
  · exact ⟨le_of_not_lt h1, le_of_not_lt h2⟩

theorem equalWeights_sum (n : ℕ) (hn : 0 < n) : (equalWeights n).sum = 1 := by
  unfold equalWeights
  rw [List.sum_replicate, nsmul_eq_mul, mul_one_div, div_self]
  exact_mod_cast hn.ne'

theorem equalWeights_mem (n : ℕ) (hn : 0 < n) :
    ∀ x ∈ equalWeights n, 0 ≤ x ∧ x ≤ 1 := by
  intro x hx
  rw [List.eq_of_mem_replicate hx]
  have hpos : (0 : ℚ) < (n : ℚ) := by exact_mod_cast hn
  constructor
  · exact div_nonneg (by norm_num) hpos.le
  · rw [div_le_one hpos]
    exact_mod_cast hn

/-! ### Claims C6, C7, C8 -/

/-- Claim C6: for every regime label and every zero-row (empty) return
window, `generate_regime_specific_weights` returns exactly the equal-weight
vector (1/N per symbol) and does not invoke the allocator. -/
theorem regime_selector_empty_window_equal_weights
    (current_regime : String) (numAssets : ℕ) (allocResult : List ℚ) :
    generate_regime_specific_weights current_regime 0 numAssets allocResult
      = (equalWeights numAssets, false) := by
  unfold generate_regime_specific_weights
  simp

/-- Claim C7 counterexample: on the zero-row window the estimators return
values (the empty covariance DataFrame and the empty mean Series, both
`Except.ok`) — no EmptyWindowError, or any error at all, is signaled. -/
theorem estimators_empty_window_return_values :
    calculate_covariance_matrix [] = Except.ok []
      ∧ calculate_expected_returns [] = Except.ok [] :=
  ⟨rfl, rfl⟩

/-- Claim C7 (amended): on every empty return window the estimators return
normally with an empty result (`Except.ok []`); no exception path exists. -/
theorem estimators_empty_window_ok (returns : List (List ℚ))
    (h : dfIsEmpty returns = true) :
    calculate_covariance_matrix returns = Except.ok []
      ∧ calculate_expected_returns returns = Except.ok [] := by
  unfold calculate_covariance_matrix calculate_expected_returns
  simp [h]

/-- Witness for `estimators_empty_window_ok` at the concrete empty window. -/
theorem estimators_empty_window_ok_witness :
    dfIsEmpty [] = true ∧ calculate_covariance_matrix [] = Except.ok [] :=
  ⟨rfl, (estimators_empty_window_ok [] rfl).1⟩

/-- Claim C8 counterexample: with `high_threshold = low_threshold = 1`
(satisfying high ≥ low ≥ 0) and volatility value 1 — which satisfies
value ≥ high_threshold — the classifier labels the value `Low_Vol`, not
`High_Vol` as the claim states, because the source applies the `Low_Vol`
masked assignment after the `High_Vol` one. -/
theorem regime_overlap_labeled_low :
    (1 : ℚ) ≤ 1 ∧ (0 : ℚ) ≤ 1
      ∧ identify_regimes 1 1 [1] = ["Low_Vol"]
      ∧ identify_regimes 1 1 [1] ≠ ["High_Vol"] := by
  refine ⟨le_refl 1, by norm_num, rfl, ?_⟩
  intro hcontra
  have : "Low_Vol" = "High_Vol" := by
    have h1 : identify_regimes 1 1 [1] = ["Low_Vol"] := rfl
    rw [h1] at hcontra
    exact List.head_eq_of_cons_eq hcontra
  simp at this

/-- Claim C8 (amended): for thresholds with high_threshold ≥ low_threshold
≥ 0, the classifier labels v as Low_Vol when v ≤ low_threshold — including
any value satisfying both comparisons, since the Low_Vol assignment is
applied last — as High_Vol when low_threshold < v and v ≥ high_threshold,
and as Normal_Vol otherwise. -/
theorem regime_classification (high low v : ℚ)
    (hhl : low ≤ high) (hl0 : 0 ≤ low) :
    (v ≤ low → identify_regimes high low [v] = ["Low_Vol"])
    ∧ (low < v → high ≤ v → identify_regimes high low [v] = ["High_Vol"])
    ∧ (low < v → v < high → identify_regimes high low [v] = ["Normal_Vol"]) := by
  unfold identify_regimes regimeLabel
  refine ⟨fun h => by simp [h], fun h1 h2 => ?_, fun h1 h2 => ?_⟩
  · simp [not_le.mpr h1, h2]
  · simp [not_le.mpr h1, not_le.mpr h2]

/-- Witness for `regime_classification` at thresholds 2 ≥ 1 ≥ 0, value 3. -/
theorem regime_classification_witness :
    (0 : ℚ) ≤ 1 ∧ (1 : ℚ) ≤ 2 ∧ identify_regimes 2 1 [3] = ["High_Vol"] :=
  ⟨by norm_num, by norm_num,
    (regime_classification 2 1 3 (by norm_num) (by norm_num)).2.1
      (by norm_num) (by norm_num)⟩

/-! ### Claims C3, C9 -/

/-- Claim C3 counterexample: a numerical exception during solving (2 assets,
valid objective) makes the allocator return the all-ones vector `[1, 1]` —
`np.ones(2)` without the `/ 2` — not the equal-weight vector `[1/2, 1/2]`;
its components sum to 2, violating the sum-to-1 weight validity the claim
asserts for every returned vector. -/
theorem optimizer_exception_not_equal_weight :
    mean_variance_optimization 2 (some 1) none SolveOutcome.exception
        = Except.ok [1, 1]
    ∧ ([1, 1] : List ℚ) ≠ equalWeights 2
    ∧ ([1, 1] : List ℚ).sum ≠ 1 := by
  refine ⟨rfl, ?_, by norm_num⟩
  norm_num [equalWeights, List.replicate]

/-- Claim C3 (amended): with a non-empty universe and a valid objective the
allocator propagates no error from the solver; on convergence failure it
returns the equal-weight vector (components 1/N summing to 1), but on a
numerical exception it returns the all-ones vector `np.ones(N)` whose
components sum to N — so the equal-weight fallback and sum-to-1 validity
hold only on the convergence-failure path, not on the exception path. -/
theorem optimizer_fallbacks (n : ℕ) (tr ra : Option ℚ)
    (hn : 0 < n) (hobj : tr.isSome ∨ ra.isSome) :
    mean_variance_optimization n tr ra SolveOutcome.failure
        = Except.ok (equalWeights n)
    ∧ mean_variance_optimization n tr ra SolveOutcome.exception
        = Except.ok (List.replicate n 1)
    ∧ (equalWeights n).sum = 1
    ∧ (List.replicate n (1 : ℚ)).sum = n := by
  have hnot : ¬(tr.isNone && ra.isNone) = true := by
    rcases hobj with h | h <;> cases tr <;> cases ra <;> simp_all
  unfold mean_variance_optimization
  simp only [if_neg hn.ne', if_neg hnot]
  refine ⟨trivial, trivial, equalWeights_sum n hn, ?_⟩
  rw [List.sum_replicate, nsmul_eq_mul, mul_one]

/-- Witness for `optimizer_fallbacks` at 2 assets, target-risk objective. -/
theorem optimizer_fallbacks_witness :
    0 < 2
    ∧ mean_variance_optimization 2 (some 1) none SolveOutcome.failure
        = Except.ok (equalWeights 2) :=
  ⟨by norm_num,
    (optimizer_fallbacks 2 (some 1) none (by norm_num) (Or.inl rfl)).1⟩

/-- Claim C9 counterexample: an empty asset universe — a configuration
error per the claim — does not abort the run: the optimizer returns an
empty weight array (an optimization result), even when additionally no
objective is provided. -/
theorem optimizer_empty_universe_no_error :
    mean_variance_optimization 0 none none SolveOutcome.failure
      = Except.ok [] := rfl

/-- Claim C9 (amended): a missing objective specification (neither
target-risk nor risk-aversion provided) with a non-empty asset universe
raises a ValueError before any solving, and that is the only raise: an
empty asset universe returns the empty weight array without error, and with
a valid objective every solver outcome yields a returned weight vector. -/
theorem optimizer_error_classes (n : ℕ) (tr ra : Option ℚ)
    (o : SolveOutcome) :
    (0 < n → tr = none → ra = none →
      mean_variance_optimization n tr ra o
        = Except.error
            "Either target_risk or risk_aversion_lambda must be provided.")
    ∧ mean_variance_optimization 0 tr ra o = Except.ok []
    ∧ (tr.isSome ∨ ra.isSome →
        ∃ w, mean_variance_optimization n tr ra o = Except.ok w) := by
  refine ⟨fun hn htr hra => ?_, by unfold mean_variance_optimization; simp,
    fun hobj => ?_⟩
  · subst htr; subst hra
    unfold mean_variance_optimization
    rw [if_neg hn.ne']
    rfl
  · have hnot : ¬(tr.isNone && ra.isNone) = true := by
      rcases hobj with h | h <;> cases tr <;> cases ra <;> simp_all
    unfold mean_variance_optimization
    by_cases hn : n = 0
    · rw [if_pos hn]; exact ⟨[], rfl⟩
    · rw [if_neg hn, if_neg hnot]
      cases o with
      | success x =>
          dsimp only
          by_cases hs : (List.map clip01 x).sum ≠ 0
          · rw [if_pos hs]
            exact ⟨_, rfl⟩
          · rw [if_neg hs]
            exact ⟨_, rfl⟩
      | failure => exact ⟨_, rfl⟩
      | exception => exact ⟨_, rfl⟩

/-- Witness for `optimizer_error_classes`: a missing objective with 3
assets raises, applied at a concrete outcome. -/
theorem optimizer_error_classes_witness :
    0 < 3
    ∧ mean_variance_optimization 3 none none SolveOutcome.failure
        = Except.error
            "Either target_risk or risk_aversion_lambda must be provided." :=
  ⟨by norm_num,
    (optimizer_error_classes 3 none none SolveOutcome.failure).1
      (by norm_num) rfl rfl⟩

/-! ### Claim C10 -/

/-- Claim C10: for every non-empty return window (both axes of positive
length) and every regime label, the selector invokes the allocator, clips
whatever vector the allocator returned to [0,1] and re-normalizes it, so
the returned vector has every component in [0,1] and components summing to
1; and when the clipped vector sums to zero the selector returns the
equal-weight vector instead. -/
theorem regime_selector_output_valid (current_regime : String)
    (numRows numAssets : ℕ) (allocResult : List ℚ)
    (hr : 0 < numRows) (hc : 0 < numAssets) :
    (generate_regime_specific_weights current_regime numRows numAssets
        allocResult).2 = true
    ∧ (generate_regime_specific_weights current_regime numRows numAssets
        allocResult).1.sum = 1
    ∧ (∀ x ∈ (generate_regime_specific_weights current_regime numRows
        numAssets allocResult).1, 0 ≤ x ∧ x ≤ 1)
    ∧ ((allocResult.map clip01).sum = 0 →
        (generate_regime_specific_weights current_regime numRows numAssets
          allocResult).1 = equalWeights numAssets) := by
  have hne : ¬(numRows = 0 ∨ numAssets = 0) := by
    push_neg
    exact ⟨hr.ne', hc.ne'⟩
  have hwpos : ∀ x ∈ allocResult.map clip01, 0 ≤ x := by
    intro x hx
    obtain ⟨a, _, rfl⟩ := List.mem_map.mp hx
    exact (clip01_mem_unit a).1
  unfold generate_regime_specific_weights
  rw [if_neg hne]
  by_cases hs : (allocResult.map clip01).sum = 0
  · rw [if_neg (not_not_intro hs)]
    exact ⟨rfl, equalWeights_sum numAssets hc, equalWeights_mem numAssets hc,
      fun _ => rfl⟩
  · rw [if_pos hs]
    have hspos : 0 < (allocResult.map clip01).sum :=
      lt_of_le_of_ne (List.sum_nonneg hwpos) (Ne.symm hs)
    refine ⟨rfl, ?_, ?_, fun h => absurd h hs⟩
    · rw [sum_map_div, div_self hs]
    · intro x hx
      obtain ⟨v, hv, rfl⟩ := List.mem_map.mp hx
      constructor
      · exact div_nonneg (hwpos v hv) hspos.le
      · rw [div_le_one hspos]
        exact List.single_le_sum hwpos v hv

/-- Witness for `regime_selector_output_valid` at a 4-row, 3-asset window
with allocator output [5, -2, 0]. -/
theorem regime_selector_output_valid_witness :
    0 < 4 ∧ 0 < 3
    ∧ (generate_regime_specific_weights "Normal_Vol" 4 3 [5, -2, 0]).1.sum
        = 1 :=
  ⟨by norm_num, by norm_num,
    (regime_selector_output_valid "Normal_Vol" 4 3 [5, -2, 0]
      (by norm_num) (by norm_num)).2.1⟩

/-! ### Claims C1, C2, C4, C5 — the backtester -/

/-- Helper for C1: when the execution loop reports no skipped buy, every
trade it executed moved exactly `delta * price` between cash and holdings,
so cash plus holdings-value over the processed symbols is preserved. -/
theorem execTrades_conservation (l : List (ℚ × ℚ × ℚ)) :
    ∀ cash : ℚ, (execTrades cash l).2.2 = false →
    (execTrades cash l).1
        + dot (execTrades cash l).2.1 (l.map (fun e => e.2.2))
      = cash + dot (l.map (fun e => e.1)) (l.map (fun e => e.2.2)) := by
  induction l with
  | nil => intro cash _; simp [execTrades, dot]
  | cons e rest ih =>
    intro cash hns
    obtain ⟨h, d, p⟩ := e
    by_cases hd : 0 < d
    · by_cases hc : d * p ≤ cash
      · simp only [execTrades, if_pos hd, if_pos hc] at hns ⊢
        have hrec := ih (cash - d * p) hns
        simp only [List.map_cons, dot_cons]
        rw [add_mul]
        linarith [hrec]
      · simp only [execTrades, if_pos hd, if_neg hc] at hns
        simp at hns
    · by_cases hs : d < 0
      · simp only [execTrades, if_neg hd, if_pos hs] at hns ⊢
        have hrec := ih (cash - d * p) hns
        simp only [List.map_cons, dot_cons]
        rw [add_mul]
        linarith [hrec]
      · simp only [execTrades, if_neg hd, if_neg hs] at hns ⊢
        have hrec := ih cash hns
        simp only [List.map_cons, dot_cons]
        linarith [hrec]

/-- Claim C1: for every simulated date on which no buy is skipped for
insufficient cash, trade execution is value-neutral except for the explicit
cost deduction: cash after the step plus post-trade holdings valued at that
date's prices equals cash before the step plus pre-trade holdings at those
prices, minus the trade cost computed for that date. -/
theorem run_backtest_step_conservation
    (rate : ℚ) (holdings prices target_weights previous_weights : List ℚ)
    (cash : ℚ)
    (hhp : holdings.length = prices.length)
    (htp : target_weights.length = prices.length)
    (hns : (runStep rate holdings prices target_weights previous_weights
              cash).anySkip = false) :
    (runStep rate holdings prices target_weights previous_weights cash).cash
      + dot (runStep rate holdings prices target_weights previous_weights
              cash).holdings prices
    = cash + dot holdings prices
      - (runStep rate holdings prices target_weights previous_weights
          cash).tradeCost := by
  unfold runStep at hns ⊢
  dsimp only at hns ⊢
  set pv := (List.zipWith (fun x1 x2 => x1 * x2) holdings prices).sum + cash
    with hpv
  set cost := calculate_trade_cost rate previous_weights target_weights pv
    with hcost
  set deltas := List.zipWith (fun t h => t - h)
    (List.zipWith (fun w p => w * (pv - cost) / p) target_weights prices)
    holdings with hdeltas
  set l := holdings.zip (deltas.zip prices) with hl
  have hdl : deltas.length = prices.length := by
    simp [hdeltas, List.length_zipWith, hhp, htp]
  have hzl : (deltas.zip prices).length = prices.length := by
    simp [List.length_zip, hdl]
  have hm1 : l.map (fun e => e.1) = holdings := by
    rw [hl]
    exact List.map_fst_zip holdings (deltas.zip prices) (by rw [hzl, hhp])
  have hm2 : l.map (fun e => e.2.2) = prices := by
    rw [hl]
    have e1 : List.map (fun e => e.2.2) (holdings.zip (deltas.zip prices))
        = List.map (fun q => q.2)
            (List.map (fun e => e.2) (holdings.zip (deltas.zip prices))) := by
      rw [List.map_map]
      rfl
    rw [e1, List.map_snd_zip holdings (deltas.zip prices) (by rw [hzl, hhp]),
      List.map_snd_zip deltas prices (by rw [hdl])]
  have key := execTrades_conservation l (cash - cost) hns
  rw [hm1, hm2] at key
  linarith [key]

/-- Witness for `run_backtest_step_conservation`: two assets, prices 1 and
2, target weights 3/5 and 2/5, cost rate 3 bps, starting cash 100 — no buy
is skipped and conservation holds. -/
theorem run_backtest_step_conservation_witness :
    ([0, 0] : List ℚ).length = ([1, 2] : List ℚ).length
    ∧ (runStep (3/10000) [0, 0] [1, 2] [3/5, 2/5] [0, 0] 100).anySkip = false
    ∧ (runStep (3/10000) [0, 0] [1, 2] [3/5, 2/5] [0, 0] 100).cash
        + dot (runStep (3/10000) [0, 0] [1, 2] [3/5, 2/5] [0, 0] 100).holdings
            [1, 2]
      = 100 + dot [0, 0] [1, 2]
        - (runStep (3/10000) [0, 0] [1, 2] [3/5, 2/5] [0, 0] 100).tradeCost :=
  ⟨rfl,
    by norm_num [runStep, execTrades, calculate_trade_cost, ratAbs, dot],
    run_backtest_step_conservation (3/10000) [0, 0] [1, 2] [3/5, 2/5] [0, 0]
      100 rfl rfl
      (by norm_num [runStep, execTrades, calculate_trade_cost, ratAbs, dot])⟩

/-- Claim C4: in each date's execution step, for the symbol at hand in
asset-universe order: a positive share delta with sufficient cash executes
the buy (holdings increase by the delta, cash decreases by exactly
delta × price); a positive delta with insufficient cash is skipped entirely
(that symbol's holding and the cash are unchanged when the rest of the loop
runs, and the skip is flagged); a negative delta always executes as a sell
(holdings decrease, cash increases by |delta| × price) with no cash check. -/
theorem execTrades_symbol_rules (cash h d p : ℚ) (rest : List (ℚ × ℚ × ℚ)) :
    (0 < d → d * p ≤ cash →
      execTrades cash ((h, d, p) :: rest)
        = ((execTrades (cash - d * p) rest).1,
           (h + d) :: (execTrades (cash - d * p) rest).2.1,
           (execTrades (cash - d * p) rest).2.2))
    ∧ (0 < d → cash < d * p →
      execTrades cash ((h, d, p) :: rest)
        = ((execTrades cash rest).1, h :: (execTrades cash rest).2.1, true))
    ∧ (d < 0 →
      execTrades cash ((h, d, p) :: rest)
        = ((execTrades (cash - d * p) rest).1,
           (h + d) :: (execTrades (cash - d * p) rest).2.1,
           (execTrades (cash - d * p) rest).2.2)) := by
  refine ⟨fun hd hc => ?_, fun hd hc => ?_, fun hneg => ?_⟩
  · simp only [execTrades, if_pos hd, if_pos hc]
  · simp only [execTrades, if_pos hd, if_neg (not_le.mpr hc)]
  · simp only [execTrades, if_neg (not_lt.mpr hneg.le), if_pos hneg]

/-- Witness for `execTrades_symbol_rules`: a funded buy, an unfunded
(skipped) buy, and a sell, each at concrete numbers. -/
theorem execTrades_symbol_rules_witness :
    execTrades 100 [((2 : ℚ), 60, 1)] = (40, [62], false)
    ∧ execTrades 50 [((2 : ℚ), 60, 1)] = (50, [2], true)
    ∧ execTrades 50 [((2 : ℚ), -3, 1)] = (53, [-1], false) := by
  refine ⟨?_, ?_, ?_⟩
  · rw [(execTrades_symbol_rules 100 2 60 1 []).1 (by norm_num) (by norm_num)]
    norm_num [execTrades]
  · rw [(execTrades_symbol_rules 50 2 60 1 []).2.1 (by norm_num) (by norm_num)]
    norm_num [execTrades]
  · rw [(execTrades_symbol_rules 50 2 (-3) 1 []).2.2 (by norm_num)]
    norm_num [execTrades]

/-- Claim C5: per-date execution is not commutative in the asset-universe
order.  Concrete scenario: 2 assets, zero cost rate, cash 100, prices 1 and
2, target weight 3/5 each, so the desired buys are 60 shares (notional 60)
and 30 shares (notional 60); total notional 120 exceeds the cash 100 while
either single buy alone is fundable.  With the universe in one order the
first symbol's buy executes (60 shares) and the second is skipped; with the
universe reversed the other symbol's buy executes (30 shares) and the first
is skipped — the first asset ends with 60 shares in one ordering and 0 in
the other. -/
theorem execution_order_sensitivity :
    (runStep 0 [0, 0] [1, 2] [3/5, 3/5] [0, 0] 100).anySkip = true
    ∧ (runStep 0 [0, 0] [1, 2] [3/5, 3/5] [0, 0] 100).holdings = [60, 0]
    ∧ (runStep 0 [0, 0] [2, 1] [3/5, 3/5] [0, 0] 100).anySkip = true
    ∧ (runStep 0 [0, 0] [2, 1] [3/5, 3/5] [0, 0] 100).holdings = [30, 0]
    ∧ (60 : ℚ) * 1 + 30 * 2 > 100
    ∧ (60 : ℚ) * 1 ≤ 100 ∧ (30 : ℚ) * 2 ≤ 100
    ∧ (runStep 0 [0, 0] [1, 2] [3/5, 3/5] [0, 0] 100).holdings.getD 0 0
        ≠ (runStep 0 [0, 0] [2, 1] [3/5, 3/5] [0, 0] 100).holdings.getD 1 0 := by
  norm_num [runStep, execTrades, calculate_trade_cost, ratAbs, dot]

/-- Claim C2 evaluated at its failing input (one asset at price 1, zero
cost rate, previous weight 0, target weight 1, holdings 0, cash 100): the
buy of 100 shares executes, so the post-trade holding × price / total value
is 100 × 1 / 100 = 1, but the weight the source writes into the history
entry — and carries forward as previous_weights — is the PRE-trade asset
value divided by the post-trade total, 0 / 100 = 0 ≠ 1.  The source uses
the stale `current_asset_values` of line 65 in lines 98 and 102 instead of
post-trade holdings values. -/
theorem recorded_weight_uses_pretrade_values :
    (runStep 0 [0] [1] [1] [0] 100).weights = [0]
    ∧ (runStep 0 [0] [1] [1] [0] 100).holdings = [100]
    ∧ (runStep 0 [0] [1] [1] [0] 100).finalValue = 100
    ∧ (100 : ℚ) * 1 / 100 = 1
    ∧ (0 : ℚ) ≠ 1 := by
  norm_num [runStep, execTrades, calculate_trade_cost, ratAbs, dot]
